import Mathlib

/-!
Verification development for the configurable MLM system's core engines:
the commission calculation engine (`lib/engines/commission-calculator.ts`),
the partner hierarchy manager (`lib/engines/hierarchy-manager.ts`) and the
fraud detection engine (`lib/engines/fraud-detection.ts`).

Monetary amounts and JS numbers are modelled as rationals (`ℚ`); `Date`
values become explicit numeric clock parameters (month indices for the
month-difference arithmetic, millisecond counts elsewhere), so every
`new Date()` / `Date.now()` occurrence in the source is an explicit input.
JS truthiness of optional numeric fields (`if (x) ...`) is modelled by an
`Option` value together with a `≠ 0` guard, matching the fact that a
configured `0` is falsy in the source. `Math.round` agrees with Mathlib's
`round` (half-up towards `+∞`) on rationals.
-/

namespace MLM

/-- `Math.round(x * 100) / 100` — round to 2 decimals, as in the source. -/
def round2 (x : ℚ) : ℚ := (round (x * 100) : ℤ) / 100

/-- `calculateMonthsInBusiness`: `(now.year - join.year)*12 + (now.month - join.month)`,
with dates abstracted to absolute month indices. -/
def calculateMonthsInBusiness (nowMonth joinMonth : ℤ) : ℤ := nowMonth - joinMonth

/-- `QualificationCriteria` from `lib/types/config.ts`; every field optional. -/
structure QualificationCriteria where
  personalVolume : Option ℚ := none
  teamVolume : Option ℚ := none
  activeDownline : Option ℚ := none
  timeInBusiness : Option ℤ := none
  certificationRequired : Option (List String) := none
deriving DecidableEq, Repr

inductive CommissionType where
  | percentage
  | fixed
deriving DecidableEq, Repr

/-- `CommissionTier` from `lib/types/config.ts`. -/
structure CommissionTier where
  level : ℕ
  name : String
  qualificationCriteria : QualificationCriteria
  commissionRate : ℚ
  commissionType : CommissionType
  minimumVolume : Option ℚ := none
  maximumEarnings : Option ℚ := none
deriving DecidableEq, Repr

inductive TriggerOp where
  | equals
  | greater_than
  | less_than
  | between
deriving DecidableEq, Repr

/-- A bonus trigger's `value` is dynamically either a number or a two-element
range array in the source; modelled as a closed sum. -/
inductive TriggerValue where
  | num (q : ℚ)
  | range (lo hi : ℚ)
deriving DecidableEq, Repr

structure BonusTrigger where
  metric : String
  operator : TriggerOp
  value : TriggerValue
deriving DecidableEq, Repr

inductive RewardType where
  | fixed_amount
  | percentage
deriving DecidableEq, Repr

structure BonusReward where
  type : RewardType
  value : ℚ
  currency : Option String := none
deriving DecidableEq, Repr

/-- `BonusRule` as used by the commission calculator. -/
structure BonusRule where
  id : String
  name : String
  eligibilityCriteria : QualificationCriteria
  trigger : BonusTrigger
  reward : BonusReward
deriving DecidableEq, Repr

/-- `CommissionCap` from `commission-calculator.ts`. -/
structure CommissionCap where
  id : String
  name : String
  maxAmount : ℚ
  applicableLevels : Option (List ℕ) := none
  applicableToAll : Bool := false
deriving DecidableEq, Repr

/-- Product catalog entry: eligibility and optional per-level rate overrides. -/
structure ProductConfig where
  id : String
  commissionEligible : Bool
  commissionRates : List (ℕ × ℚ) := []
deriving DecidableEq, Repr

/-- The slice of `MLMSystemConfig` consumed by the engines. -/
structure MLMConfig where
  maxHierarchyLevels : ℕ
  products : List ProductConfig
  tiers : List CommissionTier
  bonuses : List BonusRule
  caps : List CommissionCap
  residualEnabled : Bool
  residualPeriod : ℤ
deriving DecidableEq, Repr

/-- `Transaction` from `commission-calculator.ts` (fields the engine reads). -/
structure Transaction where
  id : String
  partnerId : String
  amount : ℚ
  currency : String
  productId : String
deriving DecidableEq, Repr

/-- `PartnerHierarchyNode` from `commission-calculator.ts`; `joinDate`
abstracted to a month index for `calculateMonthsInBusiness`. -/
structure PartnerHierarchyNode where
  id : String
  level : ℕ := 1
  personalVolume : ℚ := 0
  teamVolume : ℚ := 0
  monthlyVolume : ℚ := 0
  activeDownline : ℚ := 0
  joinMonth : ℤ := 0
  currentMonthEarnings : Option ℚ := none
  consecutiveActiveMonths : Option ℚ := none
  certifications : Option (List String) := none
deriving DecidableEq, Repr

structure CommissionResult where
  partnerId : String
  level : ℕ
  tierName : String
  baseAmount : ℚ
  commissionRate : ℚ
  commissionAmount : ℚ
  commissionType : CommissionType
  currency : String
deriving DecidableEq, Repr

structure BonusResult where
  partnerId : String
  bonusId : String
  bonusName : String
  amount : ℚ
  currency : String
  triggerMetric : String
  triggerValue : TriggerValue
deriving DecidableEq, Repr

structure CommissionDistribution where
  transactionId : String
  totalCommissionPaid : ℚ
  commissions : List CommissionResult
  bonuses : List BonusResult
  processingTimestamp : ℕ
deriving DecidableEq, Repr

structure Subscription where
  id : String
  partnerId : String
  customerEmail : String
  productId : String
  monthlyAmount : ℚ
  currency : String
  startMonth : ℤ
deriving DecidableEq, Repr

/-- `isPartnerQualified`: each criterion is skipped when absent or falsy
(`0`), and fails the partner when its stored metric is below the bound.
`certifications?.includes` on an absent list is falsy in JS. -/
def isPartnerQualified (nowMonth : ℤ) (partner : PartnerHierarchyNode)
    (criteria : QualificationCriteria) : Bool :=
  let pvOk := match criteria.personalVolume with
    | some v => !(v != 0 && partner.personalVolume < v)
    | none => true
  let tvOk := match criteria.teamVolume with
    | some v => !(v != 0 && partner.teamVolume < v)
    | none => true
  let adOk := match criteria.activeDownline with
    | some v => !(v != 0 && partner.activeDownline < v)
    | none => true
  let tibOk := match criteria.timeInBusiness with
    | some m => !(m != 0 && calculateMonthsInBusiness nowMonth partner.joinMonth < m)
    | none => true
  let certOk := match criteria.certificationRequired with
    | some req =>
        req.length == 0 ||
        req.all (fun cert => match partner.certifications with
          | some cs => cs.contains cert
          | none => false)
    | none => true
  pvOk && tvOk && adOk && tibOk && certOk

/-- The tiers at `level` that the partner qualifies for, in configured order. -/
def qualifyingTiers (cfg : MLMConfig) (nowMonth : ℤ)
    (partner : PartnerHierarchyNode) (level : ℕ) : List CommissionTier :=
  cfg.tiers.filter (fun tier =>
    tier.level == level && isPartnerQualified nowMonth partner tier.qualificationCriteria)

/-- The `reduce` accumulator step of `findApplicableTier`. -/
def pickBetterTier (best : Option CommissionTier) (current : CommissionTier) :
    Option CommissionTier :=
  match best with
  | none => some current
  | some b => if current.commissionRate > b.commissionRate then some current else some b

/-- `findApplicableTier`: filter to qualifying tiers for the level, then
`reduce` keeping the highest rate (ties keep the earlier element). -/
def findApplicableTier (cfg : MLMConfig) (nowMonth : ℤ)
    (partner : PartnerHierarchyNode) (level : ℕ) : Option CommissionTier :=
  (qualifyingTiers cfg nowMonth partner level).foldl pickBetterTier none

/-- `isCapApplicable`: `cap.applicableLevels?.includes(level) || cap.applicableToAll`. -/
def isCapApplicable (cap : CommissionCap) (level : ℕ) : Bool :=
  (match cap.applicableLevels with
   | some ls => ls.contains level
   | none => false) || cap.applicableToAll

/-- `product.commissionRates?.[level] || tier.commissionRate`: a missing or
falsy (`0`) override falls back to the tier's own rate. -/
def productLevelRate (product : ProductConfig) (level : ℕ) (tierRate : ℚ) : ℚ :=
  match product.commissionRates.lookup level with
  | some r => if r == 0 then tierRate else r
  | none => tierRate

/-- `calculateTierCommission`: raw amount from the rate, `null` below the
tier's minimum volume, clamp by the monthly earnings cap and by every
applicable commission cap, then round to 2 decimals. -/
def calculateTierCommission (cfg : MLMConfig) (transaction : Transaction)
    (partner : PartnerHierarchyNode) (tier : CommissionTier) (level : ℕ)
    (product : ProductConfig) : Option CommissionResult :=
  let commissionRate := productLevelRate product level tier.commissionRate
  let amount0 : ℚ :=
    match tier.commissionType with
    | .percentage => transaction.amount * commissionRate
    | .fixed => commissionRate
  let minViolated := match tier.minimumVolume with
    | some m => m != 0 && transaction.amount < m
    | none => false
  if minViolated then none
  else
    let amount1 := match tier.maximumEarnings with
      | some maxE =>
          if maxE != 0 then
            min amount0 (maxE - (partner.currentMonthEarnings.getD 0))
          else amount0
      | none => amount0
    let amount2 := cfg.caps.foldl
      (fun a cap => if isCapApplicable cap level then min a cap.maxAmount else a) amount1
    some {
      partnerId := partner.id
      level := level
      tierName := tier.name
      baseAmount := transaction.amount
      commissionRate := commissionRate
      commissionAmount := round2 amount2
      commissionType := tier.commissionType
      currency := transaction.currency }

/-- `isBonusTriggerMet`: read the stored metric named by the trigger, then
compare per the operator; unknown metrics and number/array shape mismatches
resolve to `false` (JS comparisons against `undefined`). -/
def isBonusTriggerMet (partner : PartnerHierarchyNode) (rule : BonusRule) : Bool :=
  let actual? : Option ℚ :=
    match rule.trigger.metric with
    | "monthly_volume" => some partner.monthlyVolume
    | "team_size" => some partner.activeDownline
    | "personal_sales" => some partner.personalVolume
    | "consecutive_months" => some (partner.consecutiveActiveMonths.getD 0)
    | _ => none
  match actual? with
  | none => false
  | some actual =>
    match rule.trigger.operator, rule.trigger.value with
    | .equals, .num v => actual == v
    | .greater_than, .num v => actual > v
    | .less_than, .num v => actual < v
    | .between, .range lo hi => lo ≤ actual && actual ≤ hi
    | _, _ => false

/-- `calculateBonuses`: for each configured rule, check eligibility (reusing
the tier-qualification predicate on the rule's criteria) and the trigger,
compute the reward, and emit a `BonusResult` only when the pre-rounding
amount is positive; the stored amount is the rounded one. -/
def calculateBonuses (cfg : MLMConfig) (nowMonth : ℤ)
    (partner : PartnerHierarchyNode) (transaction : Transaction) : List BonusResult :=
  cfg.bonuses.filterMap (fun rule =>
    if !(isPartnerQualified nowMonth partner rule.eligibilityCriteria) then none
    else if !(isBonusTriggerMet partner rule) then none
    else
      let bonusAmount : ℚ :=
        match rule.reward.type with
        | .fixed_amount => rule.reward.value
        | .percentage => transaction.amount * (rule.reward.value / 100)
      if bonusAmount > 0 then
        some {
          partnerId := partner.id
          bonusId := rule.id
          bonusName := rule.name
          amount := round2 bonusAmount
          currency := rule.reward.currency.getD transaction.currency
          triggerMetric := rule.trigger.metric
          triggerValue := rule.trigger.value }
      else none)

/-- The per-level loop body of `calculateCommissions`, walking the upline
with `level = i + 1`; returns the accumulated commissions, bonuses and
total in loop order. -/
def calcLevels (cfg : MLMConfig) (nowMonth : ℤ) (transaction : Transaction)
    (product : ProductConfig) :
    List PartnerHierarchyNode → ℕ → List CommissionResult × List BonusResult × ℚ
  | [], _ => ([], [], 0)
  | partner :: rest, level =>
    let tail := calcLevels cfg nowMonth transaction product rest (level + 1)
    match findApplicableTier cfg nowMonth partner level with
    | none => tail
    | some tier =>
      match calculateTierCommission cfg transaction partner tier level product with
      | none => tail
      | some cr =>
        if cr.commissionAmount > 0 then
          let partnerBonuses := calculateBonuses cfg nowMonth partner transaction
          (cr :: tail.1, partnerBonuses ++ tail.2.1,
            cr.commissionAmount + (partnerBonuses.map (·.amount)).sum + tail.2.2)
        else tail

/-- The zero-value distribution returned for ineligible or unknown products. -/
def zeroDistribution (transactionId : String) (ts : ℕ) : CommissionDistribution :=
  { transactionId := transactionId
    totalCommissionPaid := 0
    commissions := []
    bonuses := []
    processingTimestamp := ts }

/-- `calculateCommissions`: throw on non-positive amount, zero distribution
for unknown/ineligible products, else run the level loop over the first
`maxHierarchyLevels` upline entries. `ts` is the `new Date()` reading used
for `processingTimestamp`. -/
def calculateCommissions (cfg : MLMConfig) (transaction : Transaction)
    (partnerHierarchy : List PartnerHierarchyNode) (nowMonth : ℤ) (ts : ℕ) :
    Except String CommissionDistribution :=
  if transaction.amount ≤ 0 then
    .error "Transaction amount must be positive"
  else
    match cfg.products.find? (fun p => p.id == transaction.productId) with
    | none => .ok (zeroDistribution transaction.id ts)
    | some product =>
      if !product.commissionEligible then .ok (zeroDistribution transaction.id ts)
      else
        let r := calcLevels cfg nowMonth transaction product
          (partnerHierarchy.take cfg.maxHierarchyLevels) 1
        .ok {
          transactionId := transaction.id
          totalCommissionPaid := r.2.2
          commissions := r.1
          bonuses := r.2.1
          processingTimestamp := ts }

/-- The synthetic transaction built for a subscription's residual payment.
`nowMs` is the `Date.now()` reading embedded in the generated id. -/
def residualTransaction (sub : Subscription) (nowMs : ℕ) : Transaction :=
  { id := "residual_" ++ sub.id ++ "_" ++ toString nowMs
    partnerId := sub.partnerId
    amount := sub.monthlyAmount
    currency := sub.currency
    productId := sub.productId }

/-- The subscription loop of `calculateResidualCommissions`: skip
subscriptions outside the residual period, re-run `calculateCommissions`,
scale each commission amount by the fixed residual factor `0.5` and
recompute the total from the scaled commissions. An exception from
`calculateCommissions` propagates. -/
def residualLoop (cfg : MLMConfig) (partnerHierarchy : List PartnerHierarchyNode)
    (nowMonth : ℤ) (nowMs ts : ℕ) :
    List Subscription → Except String (List CommissionDistribution)
  | [] => .ok []
  | sub :: rest =>
    if calculateMonthsInBusiness nowMonth sub.startMonth > cfg.residualPeriod then
      residualLoop cfg partnerHierarchy nowMonth nowMs ts rest
    else do
      let dist ← calculateCommissions cfg (residualTransaction sub nowMs)
        partnerHierarchy nowMonth ts
      let residualFactor : ℚ := 1 / 2
      let scaled := dist.commissions.map (fun comm =>
        { comm with commissionAmount := comm.commissionAmount * residualFactor })
      let dist' := { dist with
        commissions := scaled
        totalCommissionPaid := (scaled.map (·.commissionAmount)).sum }
      let tail ← residualLoop cfg partnerHierarchy nowMonth nowMs ts rest
      return dist' :: tail

/-- `calculateResidualCommissions`: empty unless residual income is enabled. -/
def calculateResidualCommissions (cfg : MLMConfig) (subscriptions : List Subscription)
    (partnerHierarchy : List PartnerHierarchyNode) (nowMonth : ℤ) (nowMs ts : ℕ) :
    Except String (List CommissionDistribution) :=
  if !cfg.residualEnabled then .ok []
  else residualLoop cfg partnerHierarchy nowMonth nowMs ts subscriptions

/-- `CommissionUtils.validateCommissionDistribution`:
`|Σ commissions + Σ bonuses − totalPaid| < 0.01`. -/
def validateCommissionDistribution (d : CommissionDistribution) : Bool :=
  |((d.commissions.map (·.commissionAmount)).sum
      + (d.bonuses.map (·.amount)).sum) - d.totalCommissionPaid| < (1 / 100 : ℚ)

end MLM

deriving instance DecidableEq for Except

namespace MLM

/-! ### Concrete rule-sets and inputs used by the claim witnesses and
counterexamples. -/

/-- A commission-eligible product with no per-level overrides. -/
def prodBasic : ProductConfig := { id := "prodA", commissionEligible := true }

/-- Level-1 percentage tier at 10% with an always-true qualification. -/
def tierTen : CommissionTier :=
  { level := 1, name := "T10", qualificationCriteria := {}, commissionRate := 1 / 10,
    commissionType := .percentage }

/-- Fixed £10 bonus triggered by any positive personal sales volume. -/
def bonusFixedTen : BonusRule :=
  { id := "b1", name := "B1", eligibilityCriteria := {},
    trigger := { metric := "personal_sales", operator := .greater_than, value := .num 0 },
    reward := { type := .fixed_amount, value := 10 } }

/-- Rule-set with residual income enabled, one tier and one fixed bonus. -/
def cfgResidual : MLMConfig :=
  { maxHierarchyLevels := 5, products := [prodBasic], tiers := [tierTen],
    bonuses := [bonusFixedTen], caps := [], residualEnabled := true, residualPeriod := 12 }

/-- An upline partner with positive personal volume (trips the bonus). -/
def partnerVol : PartnerHierarchyNode := { id := "P1", personalVolume := 100 }

/-- A £1000/month subscription inside the residual window. -/
def subThousand : Subscription :=
  { id := "s1", partnerId := "P1", customerEmail := "c", productId := "prodA",
    monthlyAmount := 1000, currency := "GBP", startMonth := 0 }

/-- C1 — the spec's consistency invariant
`|Σ commissions + Σ bonuses − totalPaid| < 0.01` fails on the output of
`calculateResidualCommissions`: the residual path rescales the commission
amounts and recomputes `totalCommissionPaid` from the scaled commissions
only, while the triggered £10 bonus stays in the distribution, so the
engine's own `validateCommissionDistribution` reports the residual
distribution inconsistent (the discrepancy is the full bonus sum). -/
theorem residual_distribution_breaks_consistency :
    (calculateResidualCommissions cfgResidual [subThousand] [partnerVol] 0 0 0).map
      (fun l => l.map validateCommissionDistribution) = .ok [false] := by
  norm_num [calculateResidualCommissions, residualLoop, calculateCommissions, residualTransaction,
    calcLevels, findApplicableTier, qualifyingTiers, pickBetterTier, isPartnerQualified,
    calculateTierCommission, calculateBonuses, isBonusTriggerMet, productLevelRate, round2,
    validateCommissionDistribution, calculateMonthsInBusiness, zeroDistribution,
    cfgResidual, subThousand, partnerVol, prodBasic, tierTen, bonusFixedTen, round_eq,
    Except.map, bind, Except.bind, pure, Except.pure, List.filterMap_cons, List.filterMap_nil]

/-- Rule-set with an unknown product catalog (no products at all). -/
def cfgNoProducts : MLMConfig :=
  { maxHierarchyLevels := 5, products := [], tiers := [tierTen],
    bonuses := [], caps := [], residualEnabled := false, residualPeriod := 0 }

/-- A positive-amount transaction for a product id that is not configured. -/
def txUnknownProduct : Transaction :=
  { id := "t5", partnerId := "P1", amount := 5, currency := "GBP", productId := "nope" }

/-- C5 — `calculateCommissions` fails exactly when the transaction amount is
non-positive, and a positive-amount transaction whose product is unknown or
not commission-eligible yields the well-formed zero distribution instead of
an error. -/
theorem calculateCommissions_error_iff_nonpositive (cfg : MLMConfig)
    (tx : Transaction) (hl : List PartnerHierarchyNode) (nowMonth : ℤ) (ts : ℕ) :
    ((∃ e, calculateCommissions cfg tx hl nowMonth ts = .error e) ↔ tx.amount ≤ 0) ∧
    (0 < tx.amount →
      (cfg.products.find? (fun p => p.id == tx.productId) = none ∨
        ∃ pr, cfg.products.find? (fun p => p.id == tx.productId) = some pr ∧
          pr.commissionEligible = false) →
      calculateCommissions cfg tx hl nowMonth ts = .ok (zeroDistribution tx.id ts)) := by
  by_cases ha : tx.amount ≤ 0
  · constructor
    · simp [calculateCommissions, ha]
    · intro hpos
      exact absurd ha (not_le.mpr hpos)
  · constructor
    · simp only [calculateCommissions, if_neg ha]
      constructor
      · rintro ⟨e, he⟩
        rcases hf : cfg.products.find? (fun p => p.id == tx.productId) with _ | pr
        · rw [hf] at he
          exact absurd he (by simp)
        · rw [hf] at he
          by_cases hel : pr.commissionEligible = true
          · simp [hel] at he
          · simp [Bool.not_eq_true] at hel
            simp [hel] at he
      · intro h
        exact absurd h ha
    · intro _ hprod
      rcases hprod with hnone | ⟨pr, hpr, hel⟩
      · simp [calculateCommissions, if_neg ha, hnone]
      · simp [calculateCommissions, if_neg ha, hpr, hel]

/-- C5 witness: a £5 transaction against an empty product catalog resolves
to the zero distribution, not an error. -/
theorem calculateCommissions_error_iff_nonpositive_witness :
    calculateCommissions cfgNoProducts txUnknownProduct [] 0 0 =
      .ok (zeroDistribution "t5" 0) :=
  (calculateCommissions_error_iff_nonpositive cfgNoProducts txUnknownProduct [] 0 0).2
    (by norm_num [txUnknownProduct]) (Or.inl rfl)

end MLM

namespace MLM

/-- The timestamp-free part of a distribution (every field except
`processingTimestamp`). -/
def stripTimestamp (d : CommissionDistribution) :
    String × ℚ × List CommissionResult × List BonusResult :=
  (d.transactionId, d.totalCommissionPaid, d.commissions, d.bonuses)

/-- C6 counterexample — two invocations of `calculateCommissions` on the
identical transaction, upline and rule-set but at different clock readings
are not bit-identical: `processingTimestamp` records the invocation time. -/
theorem calculateCommissions_not_bit_identical :
    calculateCommissions cfgNoProducts txUnknownProduct [] 0 0 ≠
    calculateCommissions cfgNoProducts txUnknownProduct [] 0 1 := by
  norm_num [calculateCommissions, cfgNoProducts, txUnknownProduct, zeroDistribution]

/-- Level-1 10% tier requiring at least 2 months in business. -/
def tierTenure : CommissionTier :=
  { level := 1, name := "TT", qualificationCriteria := { timeInBusiness := some 2 },
    commissionRate := 1 / 10, commissionType := .percentage }

/-- Rule-set whose only tier carries a `timeInBusiness` criterion. -/
def cfgTenure : MLMConfig :=
  { maxHierarchyLevels := 5, products := [prodBasic], tiers := [tierTenure],
    bonuses := [], caps := [], residualEnabled := false, residualPeriod := 0 }

/-- A partner who joined at month index 0. -/
def partnerTenure : PartnerHierarchyNode := { id := "P1", joinMonth := 0 }

/-- A £1000 transaction on the configured product. -/
def txThousand : Transaction :=
  { id := "t6", partnerId := "P1", amount := 1000, currency := "GBP", productId := "prodA" }

/-- C6 (amended) — `calculateCommissions` is deterministic in the
transaction, upline, rule-set and the invocation clock: two invocations
whose clock readings fall in the same month produce distributions
identical in every field except `processingTimestamp` (each records its
own reading; identical instants give bit-identical results). The
same-month proviso is necessary, not incidental: the second conjunct
exhibits a rule-set with a `timeInBusiness` tier criterion — which reads
the current month via `calculateMonthsInBusiness` — where invocations one
month apart differ in the commissions and the total, not merely in the
timestamp. -/
theorem calculateCommissions_deterministic_upto_timestamp :
    (∀ (cfg : MLMConfig) (tx : Transaction) (hl : List PartnerHierarchyNode)
        (nowMonth : ℤ) (ts₁ ts₂ : ℕ),
      (calculateCommissions cfg tx hl nowMonth ts₁).map stripTimestamp =
      (calculateCommissions cfg tx hl nowMonth ts₂).map stripTimestamp) ∧
    (calculateCommissions cfgTenure txThousand [partnerTenure] 1 0).map stripTimestamp ≠
    (calculateCommissions cfgTenure txThousand [partnerTenure] 2 0).map stripTimestamp := by
  constructor
  · intro cfg tx hl nowMonth ts₁ ts₂
    by_cases ha : tx.amount ≤ 0
    · simp [calculateCommissions, ha]
    · rcases hf : cfg.products.find? (fun p => p.id == tx.productId) with _ | pr
      · simp [calculateCommissions, ha, hf, Except.map, stripTimestamp, zeroDistribution]
      · by_cases hel : pr.commissionEligible
        · simp [calculateCommissions, ha, hf, hel, Except.map, stripTimestamp]
        · simp [calculateCommissions, ha, hf, hel, Except.map, stripTimestamp, zeroDistribution]
  · norm_num [calculateCommissions, calcLevels, findApplicableTier, qualifyingTiers,
      pickBetterTier, isPartnerQualified, calculateTierCommission, calculateBonuses,
      isBonusTriggerMet, productLevelRate, round2, calculateMonthsInBusiness,
      cfgTenure, txThousand, partnerTenure, prodBasic, tierTenure, round_eq,
      Except.map, stripTimestamp]

/-- Rounding a nonnegative rational to 2 decimals stays nonnegative. -/
lemma round2_nonneg (x : ℚ) (hx : 0 ≤ x) : 0 ≤ round2 x := by
  unfold round2
  have h1 : (0 : ℤ) ≤ round (x * 100) := by
    rw [round_eq]
    refine Int.floor_nonneg.mpr ?_
    nlinarith
  exact div_nonneg (by exact_mod_cast h1) (by norm_num)

/-- Every bonus the engine emits has a nonnegative (rounded) amount. -/
lemma calculateBonuses_amount_nonneg (cfg : MLMConfig) (nowMonth : ℤ)
    (p : PartnerHierarchyNode) (tx : Transaction) :
    ∀ b ∈ calculateBonuses cfg nowMonth p tx, 0 ≤ b.amount := by
  intro b hb
  simp only [calculateBonuses, List.mem_filterMap] at hb
  obtain ⟨rule, _, hr⟩ := hb
  split at hr
  · exact absurd hr (by simp)
  · split at hr
    · exact absurd hr (by simp)
    · split at hr
      next hpos =>
        obtain rfl := Option.some.inj hr
        exact round2_nonneg _ (le_of_lt hpos)
      · exact absurd hr (by simp)

/-- Every commission record produced by the level loop has a strictly
positive amount (the loop only appends when the rounded amount is
positive). -/
lemma calcLevels_commissions_pos (cfg : MLMConfig) (nowMonth : ℤ)
    (tx : Transaction) (product : ProductConfig) :
    ∀ (hl : List PartnerHierarchyNode) (level : ℕ) c,
      c ∈ (calcLevels cfg nowMonth tx product hl level).1 → 0 < c.commissionAmount := by
  intro hl
  induction hl with
  | nil => intro level c hc; simp [calcLevels] at hc
  | cons p rest ih =>
    intro level c hc
    simp only [calcLevels] at hc
    rcases hft : findApplicableTier cfg nowMonth p level with _ | tier
    · simp only [hft] at hc; exact ih _ c hc
    · simp only [hft] at hc
      rcases htc : calculateTierCommission cfg tx p tier level product with _ | cr
      · simp only [htc] at hc; exact ih _ c hc
      · simp only [htc] at hc
        by_cases hpos : cr.commissionAmount > 0
        · simp only [if_pos hpos, List.mem_cons] at hc
          rcases hc with rfl | hc
          · exact hpos
          · exact ih _ c hc
        · rw [if_neg hpos] at hc; exact ih _ c hc

/-- Every bonus record produced by the level loop has a nonnegative amount. -/
lemma calcLevels_bonuses_nonneg (cfg : MLMConfig) (nowMonth : ℤ)
    (tx : Transaction) (product : ProductConfig) :
    ∀ (hl : List PartnerHierarchyNode) (level : ℕ) b,
      b ∈ (calcLevels cfg nowMonth tx product hl level).2.1 → 0 ≤ b.amount := by
  intro hl
  induction hl with
  | nil => intro level b hb; simp [calcLevels] at hb
  | cons p rest ih =>
    intro level b hb
    simp only [calcLevels] at hb
    rcases hft : findApplicableTier cfg nowMonth p level with _ | tier
    · simp only [hft] at hb; exact ih _ b hb
    · simp only [hft] at hb
      rcases htc : calculateTierCommission cfg tx p tier level product with _ | cr
      · simp only [htc] at hb; exact ih _ b hb
      · simp only [htc] at hb
        by_cases hpos : cr.commissionAmount > 0
        · simp only [if_pos hpos, List.mem_append] at hb
          rcases hb with hb | hb
          · exact calculateBonuses_amount_nonneg cfg nowMonth p tx b hb
          · exact ih _ b hb
        · rw [if_neg hpos] at hb; exact ih _ b hb

/-- C9 (amended) — in every distribution `calculateCommissions` returns,
each `CommissionResult` has a strictly positive amount (levels whose
clamped, rounded amount is not positive emit nothing and evaluate no
bonuses), while each `BonusResult` amount is nonnegative: the positivity
check for bonuses runs before rounding, so a positive sub-cent bonus is
stored as exactly `0`. -/
theorem calculateCommissions_entry_amounts (cfg : MLMConfig) (tx : Transaction)
    (hl : List PartnerHierarchyNode) (nowMonth : ℤ) (ts : ℕ)
    (d : CommissionDistribution)
    (hok : calculateCommissions cfg tx hl nowMonth ts = .ok d) :
    (∀ c ∈ d.commissions, 0 < c.commissionAmount) ∧
    (∀ b ∈ d.bonuses, 0 ≤ b.amount) := by
  by_cases ha : tx.amount ≤ 0
  · simp [calculateCommissions, ha] at hok
  · rcases hf : cfg.products.find? (fun p => p.id == tx.productId) with _ | pr
    · simp [calculateCommissions, ha, hf] at hok
      simp [← hok, zeroDistribution]
    · by_cases hel : pr.commissionEligible
      · simp [calculateCommissions, ha, hf, hel] at hok
        constructor
        · intro c hc
          rw [← hok] at hc
          exact calcLevels_commissions_pos cfg nowMonth tx pr _ _ c hc
        · intro b hb
          rw [← hok] at hb
          exact calcLevels_bonuses_nonneg cfg nowMonth tx pr _ _ b hb
      · simp [calculateCommissions, ha, hf, hel] at hok
        simp [← hok, zeroDistribution]

end MLM

namespace MLM

/-- Level-1 percentage tier at 50% with an always-true qualification. -/
def tierHalf : CommissionTier :=
  { level := 1, name := "TH", qualificationCriteria := {}, commissionRate := 1 / 2,
    commissionType := .percentage }

/-- A 1%-of-transaction bonus triggered by any positive personal sales. -/
def bonusOnePercent : BonusRule :=
  { id := "b2", name := "B2", eligibilityCriteria := {},
    trigger := { metric := "personal_sales", operator := .greater_than, value := .num 0 },
    reward := { type := .percentage, value := 1 } }

/-- Rule-set pairing the 50% tier with the 1% bonus. -/
def cfgPctBonus : MLMConfig :=
  { maxHierarchyLevels := 5, products := [prodBasic], tiers := [tierHalf],
    bonuses := [bonusOnePercent], caps := [], residualEnabled := false, residualPeriod := 0 }

/-- A £0.40 transaction: its 1% bonus (0.004) is positive before rounding
but rounds to exactly 0. -/
def txForty : Transaction :=
  { id := "t9", partnerId := "P1", amount := 2 / 5, currency := "GBP", productId := "prodA" }

/-- C9 counterexample — a distribution produced by `calculateCommissions`
can contain a `BonusResult` whose stored amount is exactly `0`: the
positivity check runs on the pre-rounding bonus amount (here 0.004), and
the rounded amount `Math.round(0.4)/100 = 0` is what gets stored. -/
theorem calculateCommissions_emits_zero_bonus :
    (calculateCommissions cfgPctBonus txForty [partnerVol] 0 0).map
      (fun d => d.bonuses.map (·.amount)) = .ok [0] := by
  norm_num [calculateCommissions, calcLevels, findApplicableTier, qualifyingTiers,
    pickBetterTier, isPartnerQualified, calculateTierCommission, calculateBonuses,
    isBonusTriggerMet, productLevelRate, round2, calculateMonthsInBusiness,
    cfgPctBonus, txForty, partnerVol, prodBasic, tierHalf, bonusOnePercent, round_eq,
    Except.map, List.filterMap_cons, List.filterMap_nil]

/-- The commission record `calculateCommissions` produces for `txForty`. -/
def crForty : CommissionResult :=
  { partnerId := "P1"
    level := 1
    tierName := "TH"
    baseAmount := 2 / 5
    commissionRate := 1 / 2
    commissionAmount := 1 / 5
    commissionType := .percentage
    currency := "GBP" }

/-- The zero-amount bonus record `calculateCommissions` produces for
`txForty`. -/
def bonusForty : BonusResult :=
  { partnerId := "P1"
    bonusId := "b2"
    bonusName := "B2"
    amount := 0
    currency := "GBP"
    triggerMetric := "personal_sales"
    triggerValue := .num 0 }

/-- The exact distribution `calculateCommissions` produces for `txForty`. -/
def distForty : CommissionDistribution :=
  { transactionId := "t9"
    totalCommissionPaid := 1 / 5
    commissions := [crForty]
    bonuses := [bonusForty]
    processingTimestamp := 0 }

/-- C9 witness: the amount-sign theorem applied to the concrete `txForty`
run (commission 0.20 is positive, the rounded-to-zero bonus is nonnegative). -/
theorem calculateCommissions_entry_amounts_witness :
    (∀ c ∈ distForty.commissions, 0 < c.commissionAmount) ∧
    (∀ b ∈ distForty.bonuses, 0 ≤ b.amount) :=
  calculateCommissions_entry_amounts cfgPctBonus txForty [partnerVol] 0 0 distForty (by
    norm_num [calculateCommissions, calcLevels, findApplicableTier, qualifyingTiers,
      pickBetterTier, isPartnerQualified, calculateTierCommission, calculateBonuses,
      isBonusTriggerMet, productLevelRate, round2, calculateMonthsInBusiness,
      cfgPctBonus, txForty, partnerVol, prodBasic, tierHalf, bonusOnePercent, round_eq,
      distForty, crForty, bonusForty, List.filterMap_cons, List.filterMap_nil])

end MLM

namespace MLM

/-- `find?` returns the marked element when everything before it fails the
predicate and it satisfies it. -/
lemma find?_append_cons {α : Type} (p : α → Bool) (t : α) :
    ∀ (pre suf : List α), (∀ u ∈ pre, p u = false) → p t = true →
      (pre ++ t :: suf).find? p = some t := by
  intro pre
  induction pre with
  | nil => intro suf _ hpt; exact List.find?_cons_of_pos _ hpt
  | cons c cs ih =>
    intro suf hpre hpt
    have hc : p c = false := hpre c (by simp)
    rw [List.cons_append, List.find?_cons_of_neg _ (by simp [hc])]
    exact ih suf (fun u hu => hpre u (by simp [hu])) hpt

/-- Structure of the `reduce` in `findApplicableTier`: starting from a seed
`b`, the fold returns either `b` itself (when nothing beats it) or the
first element that strictly beats `b` and everything before it, with
nothing after beating it. -/
lemma foldl_pickBetterTier_spec :
    ∀ (l : List CommissionTier) (b : CommissionTier),
      ∃ t, l.foldl pickBetterTier (some b) = some t ∧
        ((t = b ∧ ∀ u ∈ l, u.commissionRate ≤ b.commissionRate) ∨
         (∃ pre suf, l = pre ++ t :: suf ∧ b.commissionRate < t.commissionRate ∧
           (∀ u ∈ pre, u.commissionRate < t.commissionRate) ∧
           (∀ u ∈ suf, u.commissionRate ≤ t.commissionRate))) := by
  intro l
  induction l with
  | nil => intro b; exact ⟨b, rfl, Or.inl ⟨rfl, by simp⟩⟩
  | cons c rest ih =>
    intro b
    by_cases hcb : c.commissionRate > b.commissionRate
    · obtain ⟨t, ht, hcase⟩ := ih c
      refine ⟨t, by simpa [pickBetterTier, hcb] using ht, Or.inr ?_⟩
      rcases hcase with ⟨rfl, hall⟩ | ⟨pre, suf, heq, hlt, hpre, hsuf⟩
      · exact ⟨[], rest, rfl, hcb, by simp, hall⟩
      · refine ⟨c :: pre, suf, by rw [heq, List.cons_append], lt_trans hcb hlt, ?_, hsuf⟩
        intro u hu
        rcases List.mem_cons.mp hu with rfl | hu
        · exact hlt
        · exact hpre u hu
    · obtain ⟨t, ht, hcase⟩ := ih b
      refine ⟨t, by simpa [pickBetterTier, hcb] using ht, ?_⟩
      rcases hcase with ⟨rfl, hall⟩ | ⟨pre, suf, heq, hlt, hpre, hsuf⟩
      · refine Or.inl ⟨rfl, ?_⟩
        intro u hu
        rcases List.mem_cons.mp hu with rfl | hu
        · exact le_of_not_lt hcb
        · exact hall u hu
      · refine Or.inr ⟨c :: pre, suf, by rw [heq, List.cons_append], hlt, ?_, hsuf⟩
        intro u hu
        rcases List.mem_cons.mp hu with rfl | hu
        · exact lt_of_le_of_lt (le_of_not_lt hcb) hlt
        · exact hpre u hu

/-- The tier-selection rule stated the way the claim words it: the first
qualifying tier whose commission rate is maximal among all qualifying
tiers for the level. -/
def applicableTierSpec (cfg : MLMConfig) (nowMonth : ℤ)
    (partner : PartnerHierarchyNode) (level : ℕ) : Option CommissionTier :=
  let qual := qualifyingTiers cfg nowMonth partner level
  qual.find? (fun u => qual.all (fun v => v.commissionRate ≤ u.commissionRate))

/-- The fold with the `pickBetterTier` accumulator computes the first
maximal-rate element of any list. -/
lemma foldl_pickBetterTier_eq_firstMax (l : List CommissionTier) :
    l.foldl pickBetterTier none =
      l.find? (fun u => l.all (fun v => v.commissionRate ≤ u.commissionRate)) := by
  cases l with
  | nil => rfl
  | cons c rest =>
    obtain ⟨t, ht, hcase⟩ := foldl_pickBetterTier_spec rest c
    have hstep : (c :: rest).foldl pickBetterTier none = some t := by
      simpa [pickBetterTier] using ht
    rw [hstep]
    symm
    rcases hcase with ⟨rfl, hall⟩ | ⟨pre, suf, heq, hlt, hpre, hsuf⟩
    · apply List.find?_cons_of_pos
      simp only [List.all_eq_true, decide_eq_true_eq]
      intro v hv
      rcases List.mem_cons.mp hv with rfl | hv
      · exact le_refl _
      · exact hall v hv
    · have hl : c :: rest = (c :: pre) ++ t :: suf := by rw [heq, List.cons_append]
      rw [hl]
      apply find?_append_cons
      · intro u hu
        have hu' : u.commissionRate < t.commissionRate := by
          rcases List.mem_cons.mp hu with rfl | hu
          · exact hlt
          · exact hpre u hu
        simp only [Bool.eq_false_iff, ne_eq, List.all_eq_true, decide_eq_true_eq]
        intro hforall
        exact absurd (hforall t (by simp)) (not_le.mpr hu')
      · simp only [List.all_eq_true, decide_eq_true_eq]
        intro v hv
        rcases List.mem_append.mp hv with hv | hv
        · rcases List.mem_cons.mp hv with rfl | hv
          · exact le_of_lt hlt
          · exact le_of_lt (hpre v hv)
        · rcases List.mem_cons.mp hv with rfl | hv
          · exact le_refl _
          · exact hsuf v hv

/-- C10 — `findApplicableTier` selects, among all configured tiers for the
current level whose qualification predicate the partner satisfies, the one
with the greatest commission rate, resolving rate ties in favour of the
tier appearing earliest in the configured list. -/
theorem findApplicableTier_eq_spec (cfg : MLMConfig) (nowMonth : ℤ)
    (partner : PartnerHierarchyNode) (level : ℕ) :
    findApplicableTier cfg nowMonth partner level =
      applicableTierSpec cfg nowMonth partner level := by
  unfold findApplicableTier applicableTierSpec
  exact foldl_pickBetterTier_eq_firstMax _

end MLM

namespace MLM

/-! ### Hierarchy manager (`lib/engines/hierarchy-manager.ts`)

The manager's data-access helpers (`getPartner`, `getAllPartners`,
`getDirectDownline`, `updatePartner`) are declared in the source as
database stubs; they are modelled from the spec's partner-store contract
(§6), with the store as a list of partner records keyed by id. The
source's unbounded recursions over the sponsor chain and the descendant
tree are modelled with an explicit fuel argument, instantiated with the
store size at each call site (enough for every chain in an acyclic store;
on a cyclic store the source would recurse without bound). -/

inductive PStatus where
  | pending
  | active
  | inactive
  | suspended
  | terminated
deriving DecidableEq, Repr

/-- `Partner` from `hierarchy-manager.ts` (the fields the engine reads and
writes); `metadata.deactivationReason` is modelled as its own field and
`joinDate`/`updated_at` as numeric instants. -/
structure Partner where
  id : String
  sponsorId : Option String := none
  sponsorPath : String := ""
  level : ℕ := 1
  status : PStatus := .active
  joinTime : ℕ := 0
  personalVolume : ℚ := 0
  teamVolume : ℚ := 0
  directReferrals : ℤ := 0
  totalDownline : ℤ := 0
  activeDownline : ℤ := 0
  deactivationReason : Option String := none
  updatedAt : ℕ := 0
deriving DecidableEq, Repr

/-- The partner store: the list of all partner records. -/
abbrev Store := List Partner

/-- Modelled from the spec: the partner store's `get(id) → Partner|NotFound`
(the source's `getPartner` database stub). -/
def getPartner (s : Store) (partnerId : String) : Option Partner :=
  s.find? (fun p => p.id == partnerId)

/-- Modelled from the spec: the partner store's `listAll()` (the source's
`getAllPartners` database stub). -/
def getAllPartners (s : Store) : List Partner := s

/-- Modelled from the spec: the partner store's `listDirectChildren(id)`
(the source's `getDirectDownline` database stub). -/
def getDirectDownline (s : Store) (partnerId : String) : List Partner :=
  s.filter (fun p => p.sponsorId == some partnerId)

/-- Modelled from the spec: the partner store's `update(id, partialFields)`
(the source's `updatePartner` database stub), applying the partial update
to the record with the given id. -/
def updatePartner (s : Store) (partnerId : String) (f : Partner → Partner) : Store :=
  s.map (fun p => if p.id == partnerId then f p else p)

/-- JS `String.prototype.includes`: substring containment (used by the
source on materialized paths, where it is a substring test, not an
id-segment test). -/
def strIncludes (s sub : String) : Bool :=
  (List.range (s.toList.length + 1)).any (fun i => sub.toList.isPrefixOf (s.toList.drop i))

/-- Single-character string split, as `path.split('/')` behaves in JS. -/
def splitCharAux (sep : Char) : List Char → List Char → List (List Char)
  | [], acc => [acc.reverse]
  | c :: rest, acc =>
    if c == sep then acc.reverse :: splitCharAux sep rest []
    else splitCharAux sep rest (c :: acc)

/-- `path.split('/').filter(id => id.length > 0)` — the decoded ancestor id
list of a materialized path. -/
def pathIds (path : String) : List String :=
  ((splitCharAux '/' path.toList []).map (fun cs => String.mk cs)).filter
    (fun t => t.length > 0)

/-- The comparator `(a, b) => a.level - b.level, then joinDate` of
`getDownlineHierarchy`, as a stable ordering test. -/
def partnerBefore (a b : Partner) : Bool :=
  a.level < b.level || (a.level == b.level && a.joinTime ≤ b.joinTime)

/-- Stable insertion step for `sortPartners`. -/
def insertPartner (a : Partner) : List Partner → List Partner
  | [] => [a]
  | b :: rest => if partnerBefore b a then b :: insertPartner a rest else a :: b :: rest

/-- The stable sort by level then join date used by `getDownlineHierarchy`. -/
def sortPartners (l : List Partner) : List Partner :=
  l.foldl (fun acc a => insertPartner a acc) []

/-- `getDownlineHierarchy(partnerId, maxLevels = 5, activeOnly = true)`:
all partners whose sponsor path contains `partnerId` (substring test),
other than the partner itself, within `maxLevels` levels and (by default)
with `active` status, sorted by level then join date. -/
def getDownlineHierarchy (s : Store) (partnerId : String)
    (maxLevels : ℕ := 5) (activeOnly : Bool := true) : List Partner :=
  match getPartner s partnerId with
  | none => []
  | some partner =>
    let downline := (getAllPartners s).filter (fun p =>
      strIncludes p.sponsorPath partnerId && p.id != partnerId &&
      ((p.level : ℤ) - (partner.level : ℤ) ≤ (maxLevels : ℤ)) &&
      (!activeOnly || p.status == PStatus.active))
    sortPartners downline

/-- `getUplineHierarchy(partnerId)`: decode the materialized path, resolve
each ancestor id (dropping unresolvable ones), then `reverse()` the
root-first decoded list. -/
def getUplineHierarchy (s : Store) (partnerId : String) : List Partner :=
  match getPartner s partnerId with
  | none => []
  | some partner =>
    if partner.sponsorPath == "" then []
    else
      let sponsorIds := pathIds partner.sponsorPath
      (sponsorIds.filterMap (fun sid => getPartner s sid)).reverse

/-- `buildSponsorPath(sponsorId)`: the sponsor's own path extended with the
sponsor's id (just the id when the sponsor's path is empty/falsy). -/
def buildSponsorPath (s : Store) (sponsorId : String) : String :=
  match getPartner s sponsorId with
  | none => ""
  | some sponsor =>
    if sponsor.sponsorPath == "" then sponsorId
    else sponsor.sponsorPath ++ "/" ++ sponsorId

/-- `updateUplineTotalDownline`: walk the sponsor chain, clamping each
`totalDownline` at 0 after adding the delta. -/
def updateUplineTotalDownline (s : Store) (sponsorId : String) (delta : ℤ) :
    ℕ → Store
  | 0 => s
  | fuel + 1 =>
    match getPartner s sponsorId with
    | none => s
    | some sponsor =>
      let s' := updatePartner s sponsorId (fun p =>
        { p with totalDownline := max 0 (sponsor.totalDownline + delta) })
      match sponsor.sponsorId with
      | some up => updateUplineTotalDownline s' up delta fuel
      | none => s'

/-- `updateSponsorDownlineCounts`: adjust the sponsor's direct-referral and
total-downline counters, then propagate the total-downline delta up the
chain. -/
def updateSponsorDownlineCounts (s : Store) (sponsorId : String) (delta : ℤ)
    (fuel : ℕ) : Store :=
  match getPartner s sponsorId with
  | none => s
  | some sponsor =>
    let s' := updatePartner s sponsorId (fun p =>
      { p with directReferrals := max 0 (sponsor.directReferrals + delta)
               totalDownline := max 0 (sponsor.totalDownline + delta) })
    match sponsor.sponsorId with
    | some up => updateUplineTotalDownline s' up delta fuel
    | none => s'

/-- `propagateVolumeUpdate`: hop up the sponsor chain, each hop reading the
current stored team volume and adding the delta. -/
def propagateVolumeUpdate (s : Store) (sponsorId : Option String) (volumeDelta : ℚ) :
    ℕ → Store
  | 0 => s
  | fuel + 1 =>
    match sponsorId with
    | none => s
    | some sid =>
      match getPartner s sid with
      | none => s
      | some sponsor =>
        let s' := updatePartner s sid (fun p =>
          { p with teamVolume := sponsor.teamVolume + volumeDelta })
        propagateVolumeUpdate s' sponsor.sponsorId volumeDelta fuel

/-- `updateDownlineLevelsAndPaths`: rewrite every descendant's level and
path below a moved partner, depth-first over the current direct children. -/
def updateDownlineLevelsAndPaths (s : Store) (partnerId : String) (newLevel : ℕ)
    (newPath : String) : ℕ → Store
  | 0 => s
  | fuel + 1 =>
    let directDownline := getDirectDownline s partnerId
    directDownline.foldl (fun st child =>
      let childNewLevel := newLevel + 1
      let childNewPath := newPath ++ "/" ++ child.id
      let st' := updatePartner st child.id (fun p =>
        { p with level := childNewLevel, sponsorPath := childNewPath })
      updateDownlineLevelsAndPaths st' child.id childNewLevel childNewPath fuel) s

/-- `movePartner(partnerId, newSponsorId)`: cycle check against the
default-parameter downline query (`maxLevels = 5`, `activeOnly = true`),
depth check, then sponsor/path/level update, counter updates on both
chains, and recursive rewrite of the moved subtree. -/
def movePartner (cfg : MLMConfig) (s : Store) (partnerId newSponsorId : String) :
    Except String Store :=
  match getPartner s partnerId with
  | none => .error "Partner not found"
  | some partner =>
    match getPartner s newSponsorId with
    | none => .error "New sponsor not found"
    | some newSponsor =>
      let downline := getDownlineHierarchy s partnerId 5 true
      if downline.any (fun p => p.id == newSponsorId) then
        .error "Cannot move partner to their own downline"
      else
        let oldSponsorId := partner.sponsorId
        let newLevel := newSponsor.level + 1
        if newLevel > cfg.maxHierarchyLevels then
          .error "Move would exceed maximum hierarchy level"
        else
          let newSponsorPath := buildSponsorPath s newSponsorId
          let s1 := updatePartner s partnerId (fun p =>
            { p with sponsorId := some newSponsorId
                     sponsorPath := newSponsorPath
                     level := newLevel })
          let s2 := match oldSponsorId with
            | some old => updateSponsorDownlineCounts s1 old (-1) s1.length
            | none => s1
          let s3 := updateSponsorDownlineCounts s2 newSponsorId 1 s2.length
          .ok (updateDownlineLevelsAndPaths s3 partnerId newLevel
            (newSponsorPath ++ "/" ++ partnerId) s3.length)

/-- `deactivatePartner(partnerId, reason, redistributeDownline = true)`:
mark inactive, move each direct child to the partner's own sponsor (or
root-ify the child when the partner has none), then decrement the
sponsor's counters. -/
def deactivatePartner (cfg : MLMConfig) (s : Store) (partnerId : String)
    (reason : String) (redistributeDownline : Bool := true) : Except String Store :=
  match getPartner s partnerId with
  | none => .error "Partner not found"
  | some partner =>
    let s1 := updatePartner s partnerId (fun p =>
      { p with status := .inactive, deactivationReason := some reason })
    let redistributed : Except String Store :=
      if redistributeDownline then
        let directDownline := getDirectDownline s1 partnerId
        directDownline.foldlM (fun st child =>
          match partner.sponsorId with
          | some sid => movePartner cfg st child.id sid
          | none => .ok (updatePartner st child.id (fun p =>
              { p with sponsorId := none, sponsorPath := "", level := 1 }))) s1
      else .ok s1
    match redistributed with
    | .error e => .error e
    | .ok s2 =>
      match partner.sponsorId with
      | some sid => .ok (updateSponsorDownlineCounts s2 sid (-1) s2.length)
      | none => .ok s2

/-- The partial metrics update accepted by `updatePartnerMetrics`
(the fields the claims exercise). -/
structure MetricsUpdate where
  teamVolume : Option ℚ := none
  personalVolume : Option ℚ := none
deriving DecidableEq, Repr

/-- The spread `{ ...partner, ...metrics, updated_at: new Date() }`. -/
def applyMetrics (p : Partner) (m : MetricsUpdate) (nowTs : ℕ) : Partner :=
  { p with teamVolume := m.teamVolume.getD p.teamVolume
           personalVolume := m.personalVolume.getD p.personalVolume
           updatedAt := nowTs }

/-- `updatePartnerMetrics(partnerId, metrics)`: build the updated record
(which is returned, not written back to the store), and when `teamVolume`
changed propagate the delta up the sponsor chain. -/
def updatePartnerMetrics (s : Store) (partnerId : String) (metrics : MetricsUpdate)
    (nowTs : ℕ) : Except String (Store × Partner) :=
  match getPartner s partnerId with
  | none => .error "Partner not found"
  | some partner =>
    let updatedPartner := applyMetrics partner metrics nowTs
    match metrics.teamVolume with
    | some tv =>
      if tv != partner.teamVolume then
        .ok (propagateVolumeUpdate s partner.sponsorId (tv - partner.teamVolume) s.length,
          updatedPartner)
      else .ok (s, updatedPartner)
    | none => .ok (s, updatedPartner)

/-- The sponsor chain of ancestor ids walked by the recursive count/volume
propagations, read from the store. -/
def sponsorChain (s : Store) : Option String → ℕ → List String
  | _, 0 => []
  | none, _ => []
  | some sid, fuel + 1 =>
    match getPartner s sid with
    | none => []
    | some sp => sid :: sponsorChain s sp.sponsorId fuel

end MLM

namespace MLM

/-- Rule-set fragment for hierarchy operations: depth limit 5. -/
def cfgHier : MLMConfig :=
  { maxHierarchyLevels := 5, products := [], tiers := [], bonuses := [], caps := [],
    residualEnabled := false, residualPeriod := 0 }

/-- An active root partner. -/
def partnerA : Partner := { id := "A", status := .active }

/-- An inactive direct child of `partnerA`. -/
def partnerBInactive : Partner :=
  { id := "B", sponsorId := some "A", sponsorPath := "A", level := 2, status := .inactive }

/-- Two-node hierarchy whose only descendant of the root is inactive. -/
def storeInactiveChild : Store := [partnerA, partnerBInactive]

/-- C2 — `movePartner`'s cycle check queries the downline with the default
arguments (`maxLevels = 5`, `activeOnly = true`), so an inactive descendant
is invisible to it: moving root `A` under its own inactive child `B` does
not fail with the self-cycle error; it proceeds, rewrites `A` under `B`,
and leaves `A`'s materialized path containing `A` itself (a cycle, cut off
here only by the store-size recursion bound that models the source's
unbounded descendant rewrite). -/
theorem movePartner_cycle_check_misses_inactive_descendant :
    movePartner cfgHier storeInactiveChild "A" "B" ≠
      .error "Cannot move partner to their own downline" ∧
    ((movePartner cfgHier storeInactiveChild "A" "B").toOption.bind
      (fun st => (getPartner st "A").map (·.sponsorPath))) = some "A/B/A/B/A" := by
  constructor
  · decide
  · decide

/-- An active direct child of `partnerA` (level 2). -/
def partnerBActive : Partner :=
  { id := "B", sponsorId := some "A", sponsorPath := "A", level := 2, status := .active }

/-- An active grandchild of `partnerA` (level 3, path `A/B`). -/
def partnerC : Partner :=
  { id := "C", sponsorId := some "B", sponsorPath := "A/B", level := 3, status := .active }

/-- A consistent three-level chain `A → B → C`. -/
def storeChain : Store := [partnerA, partnerBActive, partnerC]

/-- C3 — `getUplineHierarchy` resolves the root-first decoded path and then
reverses it, so for the grandchild `C` (path `A/B`) the first element of
the returned upline is the immediate sponsor `B` and the last is the root
`A` — the opposite of the claimed root-first order (and of the source's own
`// Top-level sponsor first` comment). -/
theorem getUpline_returns_immediate_sponsor_first :
    (getUplineHierarchy storeChain "C").map (·.id) = ["B", "A"] := by
  decide

/-- The per-partner integrity conditions the claim lists: path length is
`level − 1`, level is the sponsor's level plus one (roots at the empty
path), the path is exactly the ancestor chain root-to-parent (the
sponsor's own path extended by the sponsor id), and the partner's own id
does not occur in its path. -/
def partnerInvariantsOk (s : Store) (p : Partner) : Bool :=
  ((pathIds p.sponsorPath).length + 1 == p.level) &&
  (match p.sponsorId with
   | some sid =>
     (match getPartner s sid with
      | some sponsor => p.level == sponsor.level + 1
      | none => false) &&
     (p.sponsorPath == buildSponsorPath s sid)
   | none => p.sponsorPath == "") &&
  (!(pathIds p.sponsorPath).contains p.id)

/-- The claim's invariant, checked over the whole store. -/
def hierarchyInvariant (s : Store) : Bool := s.all (fun p => partnerInvariantsOk s p)

/-- C4 — deactivating the root of the consistent chain `A → B → C` with
redistribution root-ifies the direct child `B` (level 1, empty path) but
never rewrites the grandchild `C`, which keeps level 3 and path `A/B`:
the level and path invariants are broken for every descendant below the
redistributed children. -/
theorem deactivate_root_strands_grandchildren :
    hierarchyInvariant storeChain = true ∧
    (deactivatePartner cfgHier storeChain "A" "restructure" true).map hierarchyInvariant =
      .ok false ∧
    ((deactivatePartner cfgHier storeChain "A" "restructure" true).toOption.bind
      (fun st => (getPartner st "C").map (fun p => (p.level, p.sponsorPath)))) =
      some (3, "A/B") ∧
    ((deactivatePartner cfgHier storeChain "A" "restructure" true).toOption.bind
      (fun st => (getPartner st "B").map (fun p => (p.level, p.sponsorPath)))) =
      some (1, "") := by
  refine ⟨by decide, by decide, by decide, by decide⟩

end MLM

namespace MLM

/-- Adding the delta to a partner's stored team volume (and nothing else). -/
def bumpTeamVolume (delta : ℚ) (p : Partner) : Partner :=
  { p with teamVolume := p.teamVolume + delta }

/-- Store lookups commute with id-preserving record maps. -/
lemma getPartner_map (s : Store) (f : Partner → Partner)
    (hid : ∀ p, (f p).id = p.id) (x : String) :
    getPartner (s.map f) x = (getPartner s x).map f := by
  unfold getPartner
  rw [List.find?_map]
  have hpred : ((fun p => p.id == x) ∘ f) = (fun p => p.id == x) := by
    funext p
    simp [Function.comp, hid]
  rw [hpred]

/-- The sponsor chain is unchanged by maps that preserve ids and sponsor
links. -/
lemma sponsorChain_map (s : Store) (f : Partner → Partner)
    (hid : ∀ p, (f p).id = p.id) (hsp : ∀ p, (f p).sponsorId = p.sponsorId) :
    ∀ (fuel : ℕ) (sid : Option String),
      sponsorChain (s.map f) sid fuel = sponsorChain s sid fuel := by
  intro fuel
  induction fuel with
  | zero => intro sid; cases sid <;> rfl
  | succ n ih =>
    intro sid
    cases sid with
    | none => rfl
    | some x =>
      simp only [sponsorChain]
      rw [getPartner_map s f hid x]
      cases hg : getPartner s x with
      | none => rfl
      | some sp => simp only [Option.map_some', hsp, ih]

/-- With unique ids, a successful lookup pins down the record: any store
element carrying the looked-up id is the found record. -/
lemma getPartner_unique (s : Store) (x : String) (sp : Partner)
    (hids : (s.map (·.id)).Nodup) (hg : getPartner s x = some sp) :
    ∀ p ∈ s, p.id = x → p = sp := by
  intro p hp hpx
  have hsp_mem : sp ∈ s := List.mem_of_find?_eq_some hg
  have hsp_id : sp.id = x := by
    have := List.find?_some hg
    simpa using this
  exact List.inj_on_of_nodup_map hids hp hsp_mem (by rw [hpx, hsp_id])

/-- The chain walk of `propagateVolumeUpdate` adds exactly the delta to the
stored team volume of every partner on the sponsor chain and leaves every
other record (and every other field) untouched, provided ids are unique and
the chain has no repeats. -/
lemma propagateVolumeUpdate_eq (delta : ℚ) :
    ∀ (fuel : ℕ) (s : Store) (sid : Option String),
      (s.map (·.id)).Nodup → (sponsorChain s sid fuel).Nodup →
      propagateVolumeUpdate s sid delta fuel =
        s.map (fun p => if p.id ∈ sponsorChain s sid fuel then bumpTeamVolume delta p else p) := by
  intro fuel
  induction fuel with
  | zero =>
    intro s sid _ _
    simp [propagateVolumeUpdate, sponsorChain]
  | succ n ih =>
    intro s sid hids hchain
    cases sid with
    | none => simp [propagateVolumeUpdate, sponsorChain]
    | some x =>
      simp only [propagateVolumeUpdate]
      cases hg : getPartner s x with
      | none =>
        have hch : sponsorChain s (some x) (n + 1) = [] := by
          simp only [sponsorChain, hg]
        rw [hch]
        simp
      | some sp =>
        have hch : sponsorChain s (some x) (n + 1) = x :: sponsorChain s sp.sponsorId n := by
          simp only [sponsorChain, hg]
        rw [hch] at hchain ⊢
        dsimp only
        rw [List.nodup_cons] at hchain
        obtain ⟨hx_not, hrest⟩ := hchain
        set rest := sponsorChain s sp.sponsorId n with hrest_def
        -- the single store write is an id-preserving map
        have hg2 : ∀ p, ((fun p => if p.id = x then bumpTeamVolume delta p else p) p).id = p.id := by
          intro p; by_cases hp : p.id = x <;> simp [hp, bumpTeamVolume]
        have hg2sp : ∀ p, ((fun p => if p.id = x then bumpTeamVolume delta p else p) p).sponsorId
            = p.sponsorId := by
          intro p; by_cases hp : p.id = x <;> simp [hp, bumpTeamVolume]
        have hstep : updatePartner s x (fun p => { p with teamVolume := sp.teamVolume + delta }) =
            s.map (fun p => if p.id = x then bumpTeamVolume delta p else p) := by
          unfold updatePartner
          refine List.map_congr_left ?_
          intro p hp
          by_cases hpx : p.id = x
          · have hpsp : p = sp := getPartner_unique s x sp hids hg p hp hpx
            simp [hpx, bumpTeamVolume, hpsp]
          · simp [hpx]
        rw [hstep]
        set g := fun p => if p.id = x then bumpTeamVolume delta p else p with hgdef
        have hids' : ((s.map g).map (·.id)).Nodup := by
          rw [List.map_map]
          have : ((fun p => p.id) ∘ g) = (fun p => p.id) := by
            funext p; exact hg2 p
          rw [this]
          exact hids
        have hchain' : sponsorChain (s.map g) sp.sponsorId n = rest := by
          rw [sponsorChain_map s g hg2 hg2sp]
        rw [ih (s.map g) sp.sponsorId hids' (by rw [hchain']; exact hrest)]
        rw [hchain', List.map_map]
        refine List.map_congr_left ?_
        intro p _
        by_cases hpx : p.id = x
        · simp only [Function.comp, hgdef, if_pos hpx]
          have hbid : (bumpTeamVolume delta p).id = p.id := rfl
          rw [if_neg (by rw [hbid, hpx]; exact hx_not),
            if_pos (by rw [hpx]; exact List.mem_cons_self x rest)]
        · simp only [Function.comp, hgdef, if_neg hpx, List.mem_cons]
          by_cases hpr : p.id ∈ rest
          · rw [if_pos hpr, if_pos (Or.inr hpr)]
          · rw [if_neg hpr, if_neg (by rintro (h | h); exact hpx h; exact hpr h)]

/-- C8 (amended) — `updatePartnerMetrics` returns the partner's record with
the partial update applied (without writing it back to the store), and when
the update changes `teamVolume` it adds exactly the delta (new minus old)
to the stored `teamVolume` of every ancestor on the sponsor chain up to the
root, leaving every other record and every other field unchanged. -/
theorem updatePartnerMetrics_propagates_delta (s : Store) (partnerId : String)
    (metrics : MetricsUpdate) (nowTs : ℕ) (partner : Partner) (tv : ℚ)
    (hfind : getPartner s partnerId = some partner)
    (htv : metrics.teamVolume = some tv)
    (hne : tv ≠ partner.teamVolume)
    (hids : (s.map (·.id)).Nodup)
    (hchain : (sponsorChain s partner.sponsorId s.length).Nodup) :
    updatePartnerMetrics s partnerId metrics nowTs =
      .ok (s.map (fun p => if p.id ∈ sponsorChain s partner.sponsorId s.length
              then bumpTeamVolume (tv - partner.teamVolume) p else p),
           applyMetrics partner metrics nowTs) := by
  unfold updatePartnerMetrics
  rw [hfind]
  simp only [htv, bne_iff_ne, ne_eq, hne, not_false_eq_true, if_true, if_pos]
  rw [propagateVolumeUpdate_eq (tv - partner.teamVolume) s.length s partner.sponsorId hids hchain]

end MLM

namespace MLM

/-- A root partner holding team volume 100. -/
def partnerRootVol : Partner := { id := "A", teamVolume := 100 }

/-- A direct child of `partnerRootVol` holding team volume 10. -/
def partnerChildVol : Partner :=
  { id := "B", sponsorId := some "A", sponsorPath := "A", level := 2, teamVolume := 10 }

/-- Two-node store for the metrics-update scenarios. -/
def storeVol : Store := [partnerRootVol, partnerChildVol]

/-- A partial update setting `teamVolume` to 50. -/
def mUpd : MetricsUpdate := { teamVolume := some 50 }

/-- C8 counterexample — after `updateMetrics(B, { teamVolume: 50 })` the
STORED record of `B` still holds the old team volume 10: the function
builds and returns the updated record but never writes it back; only the
ancestors receive the delta. -/
theorem updateMetrics_does_not_store_own_update :
    ((updatePartnerMetrics storeVol "B" mUpd 7).toOption.bind
      (fun r => (getPartner r.1 "B").map (·.teamVolume))) = some 10 := by
  decide

/-- C8 witness: the delta-propagation theorem at the concrete two-node
store — the returned store is exactly the original with `50 − 10` added to
the team volume of each sponsor-chain member (here just the root `A`). -/
theorem updatePartnerMetrics_propagates_delta_witness :
    updatePartnerMetrics storeVol "B" mUpd 7 =
      .ok (storeVol.map (fun p =>
              if p.id ∈ sponsorChain storeVol (some "A") storeVol.length
              then bumpTeamVolume ((50 : ℚ) - 10) p else p),
           applyMetrics partnerChildVol mUpd 7) :=
  updatePartnerMetrics_propagates_delta storeVol "B" mUpd 7 partnerChildVol 50
    (by decide) rfl (by norm_num [partnerChildVol]) (by decide) (by decide)

end MLM

namespace MLM

/-! ### Fraud detection engine (`lib/engines/fraud-detection.ts`),
referral-velocity detector. Clock readings and timestamps are rational
millisecond counts; the random alert id is an explicit input. -/

inductive Severity where
  | low
  | medium
  | high
  | critical
deriving DecidableEq, Repr

/-- A velocity-detector evidence item: its `value` payload is the pair of
numbers the source stores (current vs. normal, or unique IPs vs. total). -/
structure FraudEvidence where
  type : String
  weight : ℚ
  valueFst : ℚ
  valueSnd : ℚ
  timestamp : ℚ
deriving DecidableEq, Repr

/-- The fields of `FraudAlert` the velocity detector populates
(`metadata.velocityRatio` modelled as its own field). -/
structure FraudAlert where
  id : String
  partnerId : String
  alertType : String
  severity : Severity
  riskScore : ℚ
  evidence : List FraudEvidence
  status : String
  createdAt : ℚ
  velocityRatio : ℚ
deriving DecidableEq, Repr

/-- A referral record: creation instant plus optional source IP metadata. -/
structure Referral where
  createdAt : ℚ
  ipAddress : Option String := none
deriving DecidableEq, Repr

/-- The partner fields the velocity detector reads. -/
structure FraudPartner where
  id : String
  joinTimeMs : ℚ
  totalReferrals : ℚ
deriving DecidableEq, Repr

/-- `calculateNormalReferralVelocity`: the partner's historical daily
referral rate `totalReferrals / weeksActive / 7`, with both the weeks
active and the resulting rate clamped below at 1. -/
def calculateNormalReferralVelocity (nowMs : ℚ) (partner : FraudPartner) : ℚ :=
  let weeksActive := max 1 ((nowMs - partner.joinTimeMs) / (7 * 24 * 60 * 60 * 1000))
  max 1 (partner.totalReferrals / weeksActive / 7)

/-- `detectReferralVelocityAnomalies`: count referrals in the trailing 24
hours; alert when that count strictly exceeds 5× the normal velocity, with
severity `critical` when it strictly exceeds 10×, IP-concentration
evidence when distinct non-empty source IPs are under 30% of the count,
and risk score `min(current/normal/10, 1)`. -/
def detectReferralVelocityAnomalies (alertId : String) (nowMs : ℚ)
    (partner : FraudPartner) (referrals : List Referral) : List FraudAlert :=
  let recentReferrals := referrals.filter (fun r =>
    nowMs - r.createdAt < 24 * 60 * 60 * 1000)
  let dailyVelocity : ℚ := recentReferrals.length
  let normalVelocity := calculateNormalReferralVelocity nowMs partner
  if dailyVelocity > normalVelocity * 5 then
    let ipAddresses := ((recentReferrals.filterMap (·.ipAddress)).filter
      (fun ip => ip != "")).dedup
    let evidence :=
      [FraudEvidence.mk "velocity_metric" (8 / 10) dailyVelocity normalVelocity nowMs] ++
      (if (ipAddresses.length : ℚ) < dailyVelocity * (3 / 10) then
        [FraudEvidence.mk "ip_concentration" (9 / 10) ipAddresses.length dailyVelocity nowMs]
      else [])
    [{ id := alertId
       partnerId := partner.id
       alertType := "referral_velocity"
       severity := if dailyVelocity > normalVelocity * 10 then .critical else .high
       riskScore := min (dailyVelocity / normalVelocity / 10) 1
       evidence := evidence
       status := "open"
       createdAt := nowMs
       velocityRatio := dailyVelocity / normalVelocity }]
  else []

/-- One week in milliseconds. -/
def weekMs : ℚ := 7 * 24 * 60 * 60 * 1000

/-- Partner with 5 total referrals over one week of activity (the claim's
"historical average 5 per week"). -/
def scenarioPartner : FraudPartner := { id := "P", joinTimeMs := 0, totalReferrals := 5 }

/-- 47 referrals placed one millisecond before the analysis instant. -/
def scenarioReferrals : List Referral := List.replicate 47 { createdAt := weekMs - 1 }

/-- 5 referrals placed one millisecond before the analysis instant. -/
def borderReferrals : List Referral := List.replicate 5 { createdAt := weekMs - 1 }

/-- C7 counterexample — the detector's threshold is strict: against the
clamped normal velocity of exactly 1/day (5 referrals over one week,
clamped up from ~0.71), a partner with exactly 5 referrals in the trailing
24 hours sits exactly at 5× the average, yet no alert is emitted, because
the source tests `dailyVelocity > normalVelocity * 5`, not `≥`. -/
theorem detectReferralVelocity_boundary_no_alert :
    calculateNormalReferralVelocity weekMs scenarioPartner = 1 ∧
    (borderReferrals.filter (fun r => weekMs - r.createdAt < 24 * 60 * 60 * 1000)).length = 5 ∧
    detectReferralVelocityAnomalies "a2" weekMs scenarioPartner borderReferrals = [] := by
  refine ⟨?_, ?_, ?_⟩
  · norm_num [calculateNormalReferralVelocity, scenarioPartner, weekMs, max_def]
  · norm_num [borderReferrals, weekMs, List.filter_replicate]
  · norm_num [detectReferralVelocityAnomalies, calculateNormalReferralVelocity,
      scenarioPartner, borderReferrals, weekMs, max_def, List.filter_replicate]

/-- C7 (amended) — the detector emits an alert exactly when the trailing
24-hour referral count strictly exceeds 5× the clamped normal velocity
(`max(1, totalReferrals/weeksActive/7)`, never below 1/day), with severity
`critical` exactly when it strictly exceeds 10× and the recorded velocity
ratio `current/normal`; in the claim's scenario (47 referrals in 24h
against 5 per week of history) the clamped average is 1/day, the ratio is
47×, and the severity is `critical`. -/
theorem detectReferralVelocity_trigger_severity_and_scenario :
    (∀ (alertId : String) (nowMs : ℚ) (partner : FraudPartner) (referrals : List Referral),
      (detectReferralVelocityAnomalies alertId nowMs partner referrals).map
          (fun a => (a.severity, a.velocityRatio)) =
        (if ((referrals.filter (fun r => nowMs - r.createdAt < 24 * 60 * 60 * 1000)).length : ℚ) >
            calculateNormalReferralVelocity nowMs partner * 5 then
          [((if ((referrals.filter (fun r => nowMs - r.createdAt < 24 * 60 * 60 * 1000)).length : ℚ) >
                calculateNormalReferralVelocity nowMs partner * 10 then
              Severity.critical else Severity.high),
            ((referrals.filter (fun r => nowMs - r.createdAt < 24 * 60 * 60 * 1000)).length : ℚ) /
              calculateNormalReferralVelocity nowMs partner)]
        else [])) ∧
    (detectReferralVelocityAnomalies "a1" weekMs scenarioPartner scenarioReferrals).map
        (fun a => (a.severity, a.velocityRatio)) = [(Severity.critical, 47)] := by
  constructor
  · intro alertId nowMs partner referrals
    by_cases hc : ((referrals.filter (fun r => nowMs - r.createdAt < 24 * 60 * 60 * 1000)).length : ℚ) >
        calculateNormalReferralVelocity nowMs partner * 5
    · simp [detectReferralVelocityAnomalies, hc]
    · simp [detectReferralVelocityAnomalies, hc]
  · norm_num [detectReferralVelocityAnomalies, calculateNormalReferralVelocity,
      scenarioPartner, scenarioReferrals, weekMs, max_def, List.filter_replicate]

end MLM
